import Mathlib

/-!
# Verification of the entsoe-py XML-timeseries parsing core

A shallow embedding of `src/entsoe/series_parsers.py` and the relevant
window-filter / no-data-check fragments of `src/entsoe/entsoe.py`.

Modelling conventions:
* Time instants and durations are integer milliseconds (`Int`).
  `pd.Timestamp` values are absolute instants; `tz_convert` never changes
  the instant, only the display zone, so a timestamp is carried as its
  instant plus (where needed) a display-zone tag.
* Python exceptions become an `Except` error type.  `NotImplementedError`
  raised by `_resolution_to_timedelta` is the spec's
  `UnsupportedResolutionError`; the `ValueError` raised by the final
  `astype(float)` cast is the spec's `MalformedPointError`.
* Month-anchored pandas frequencies (`'1MS'`, `'12MS'`) have no fixed
  millisecond length (they are Gregorian-calendar ranges); they lie outside
  this integer-time model and are marked with the dedicated model-boundary
  error `ParseError.calendarUnmodelled`.  All theorems about step
  arithmetic therefore carry a fixed-tick hypothesis.
* XML plumbing (BeautifulSoup traversal, `int(...)` on the position text,
  the `label`/`label2` fallback lookup of the value element) is not
  re-modelled: a `Point` carries the already-extracted position and the
  text of its value element, a `Period` the extracted `start`/`end`
  instants and resolution text, a `TsDoc` the document-level tags.
-/

set_option maxRecDepth 20000

namespace Entsoe

/-- Instants and durations are plain `Int` milliseconds throughout. -/
def msPerHour : Int := 3600000

def msPerDay : Int := 86400000

/-- Errors of the parsing core (see module docstring for the mapping to the
Python exceptions). -/
inductive ParseError where
  | unsupportedResolution
  | malformedPoint
  | calendarUnmodelled
  deriving DecidableEq, Repr

/-- The `RESOLUTIONS` dict of `series_parsers.py`, in Python dict insertion
order (which is also the iteration order of `series.items()`). -/
def RESOLUTIONS : List (String × String) :=
  [("PT60M", "60min"), ("P1Y", "12MS"), ("PT15M", "15min"), ("PT30M", "30min"),
   ("P1D", "1D"), ("P7D", "7D"), ("P1M", "1MS"), ("PT1M", "1min"), ("PT4S", "4D 4h")]

/-- `_resolution_to_timedelta`: dictionary lookup, raising
`NotImplementedError` (spec: `UnsupportedResolutionError`) for a code
outside the closed set. -/
def resolutionToTimedelta (res_text : String) : Except ParseError String :=
  match RESOLUTIONS.lookup res_text with
  | some delta => .ok delta
  | none => .error .unsupportedResolution

/-- Fixed length in milliseconds of a pandas tick frequency string, `none`
for the month-anchored frequencies (model boundary, see module docstring). -/
def pdFreqTickMs (freq : String) : Option Int :=
  [("60min", (3600000 : Int)), ("15min", 900000), ("30min", 1800000),
   ("1D", 86400000), ("7D", 604800000), ("1min", 60000),
   ("4D 4h", 360000000)].lookup freq

/-- `pd.date_range(start, end, freq=d, inclusive='left')` for a fixed tick
`d`: the instants `s + k * d` with `s + k * d < e`. -/
def dateRangeLeft (s e d : Int) : List Int :=
  if 0 < d ∧ s < e then
    (List.range ((e - s + d - 1) / d).toNat).map (fun k : ℕ => s + (k : Int) * d)
  else []

/-- `pd.date_range(start, last, freq=d)` (both ends inclusive) for a fixed
tick `d`: the instants `s + k * d` with `s + k * d ≤ last`. -/
def dateRangeIncl (s last d : Int) : List Int :=
  if 0 < d ∧ s ≤ last then
    (List.range (((last - s) / d).toNat + 1)).map (fun k : ℕ => s + (k : Int) * d)
  else []

/-- A timezone is modelled by its DST offset (milliseconds) at each absolute
instant; this is all `_parse_datetimeindex` consults (`d.dst()`). -/
structure Tz where
  dst : Int → Int

/-- Display zone of a returned index: either unchanged from the input
timestamps, or converted to UTC (`index.tz_convert("UTC")`). -/
inductive DTZone where
  | asInput
  | utc
  deriving DecidableEq, Repr

/-- The result of `_parse_datetimeindex`: the instants plus the display
zone of the returned `pd.DatetimeIndex`. -/
structure DTIndex where
  times : List Int
  zone : DTZone
  deriving DecidableEq, Repr

/-- Consecutive differences, as produced by `index.to_series().diff()`
(without the leading NaT). -/
def consecDiffs : List Int → List Int
  | a :: b :: rest => (b - a) :: consecDiffs (b :: rest)
  | _ => []

/-- `index.to_series().diff().min()`: `none` models the NaT minimum of an
index with fewer than two elements. -/
def minDiff (l : List Int) : Option Int := (consecDiffs l).min?

/-- Hour-of-day of a displayed timestamp (`Timestamp.hour`). -/
def hourOf (t : Int) : Int := t % msPerDay / msPerHour

/-- `len(set(index.map(lambda d: d.dst()))) > 1`. -/
def dstJump (z : Tz) (l : List Int) : Bool :=
  decide (1 < (l.map z.dst).dedup.length)

/-- Drop condition of the timezone branch of `_parse_datetimeindex`
(lines 74-79): a DST jump together with the weekly frequency. -/
def dropFlagTz (z : Tz) (freq : String) (full : List Int) : Bool :=
  dstJump z full && (freq == "7D")

/-- Drop condition of the no-timezone branch (line 81):
`index.to_series().diff().min() >= pd.Timedelta('1D') and end.hour == start.hour + 1`.
A NaT minimum (fewer than two elements) compares false. -/
def dropFlagNoTz (s e : Int) (full : List Int) : Bool :=
  (match minDiff full with
   | some m => decide (msPerDay ≤ m)
   | none => false) && (hourOf e == hourOf s + 1)

/-- `_parse_datetimeindex(soup, tz)`, with the `start`/`end`/`resolution`
texts already extracted.  `tz_convert` leaves the instants unchanged, so
the timezone enters only through the DST-drop decision and the final
display zone. -/
def parseDatetimeindex (start endv : Int) (res_text : String) (tz : Option Tz) :
    Except ParseError DTIndex := do
  let delta ← resolutionToTimedelta res_text
  match pdFreqTickMs delta with
  | none => .error .calendarUnmodelled
  | some d =>
    let index := dateRangeLeft start endv d
    match tz with
    | some z =>
        .ok ⟨if dropFlagTz z delta index then index.dropLast else index, .utc⟩
    | none =>
        .ok ⟨if dropFlagNoTz start endv index then index.dropLast else index, .asInput⟩

/-- One `<Point>` element: the parsed `position` integer and the text of its
value element (`point.find(label) or point.find(label2)`). -/
structure Point where
  position : Int
  valueText : String
  deriving DecidableEq, Repr

/-- One `<Period>` element: extracted `start`/`end` instants, the raw
resolution code text, and the point list in document order. -/
structure Period where
  start : Int
  endv : Int
  resolution : String
  points : List Point
  deriving DecidableEq, Repr

/-- One `<TimeSeries>` document as consumed by `_parse_timeseries_generic`:
the document-level `curveType` text, the three optional document-level
auxiliary tags (text `none` when the tag is absent), and the periods. -/
structure TsDoc where
  curvetype : String
  classificationSequence : Option String
  direction : Option String
  contract : Option String
  periods : List Period
  deriving DecidableEq, Repr

/-- The keyword flags of `_parse_timeseries_generic` that request auxiliary
columns. -/
structure Opts where
  addClassificationSequence : Bool
  addDirection : Bool
  addContract : Bool
  deriving DecidableEq, Repr

/-- `value.replace(',', '')`. -/
def stripCommas (s : String) : String :=
  String.mk (s.data.filter (fun c => c ≠ ','))

/-- Python dict assignment `data[k] = v`: overwrite in place, else append. -/
def upsert (m : List (Int × String)) (k : Int) (v : String) : List (Int × String) :=
  if m.any (fun kv => kv.1 == k) then
    m.map (fun kv => if kv.1 == k then (k, v) else kv)
  else m ++ [(k, v)]

/-- The point loop of `_parse_timeseries_generic` (lines 102-106): build the
`data` dict mapping `start + (position - 1) * delta` to the comma-stripped
value text. -/
def buildData (start : Int) (delta : Int) (points : List Point) : List (Int × String) :=
  points.foldl (fun m pt => upsert m (start + (pt.position - 1) * delta) (stripCommas pt.valueText)) []

/-- Key order used by `sort_index()`: compare rows by timestamp.  pandas
does not specify the relative order of rows with equal timestamps, so any
sort by this relation is a faithful model; a stable structural sort is
used. -/
def keyLe {α : Type} (a b : Int × α) : Prop := a.1 ≤ b.1

instance {α : Type} : DecidableRel (@keyLe α) :=
  fun a b => inferInstanceAs (Decidable (a.1 ≤ b.1))

instance {α : Type} : IsTotal (Int × α) keyLe :=
  ⟨fun a b => Int.le_total a.1 b.1⟩

instance {α : Type} : IsTrans (Int × α) keyLe :=
  ⟨fun _ _ _ hab hbc => le_trans hab hbc⟩

/-- `pd.Series(data).sort_index()`: sort the association list by key. -/
def sortIndex (m : List (Int × String)) : List (Int × String) :=
  m.insertionSort keyLe

/-- Forward fill with a running carry (`Series.ffill()`); a leading gap
stays `none` (NaN). -/
def ffillGo (carry : Option String) : List (Int × Option String) → List (Int × Option String)
  | [] => []
  | (t, v) :: rest =>
    match v with
    | some s => (t, some s) :: ffillGo (some s) rest
    | none => (t, carry) :: ffillGo carry rest

def ffill (l : List (Int × Option String)) : List (Int × Option String) :=
  ffillGo none l

/-- The three conditional auxiliary-column assignments (lines 119-138), in
the code's column order; a column is attached when its flag is set, the
document-level tag exists and its text is non-empty. -/
def auxColumns (doc : TsDoc) (opts : Opts) : List (String × String) :=
  (if opts.addClassificationSequence then
    match doc.classificationSequence with
    | some s => if s ≠ "" then [("classification_sequence", s)] else []
    | none => []
   else []) ++
  (if opts.addDirection then
    match doc.direction with
    | some s => if s ≠ "" then [("direction", s)] else []
    | none => []
   else []) ++
  (if opts.addContract then
    match doc.contract with
    | some s => if s ≠ "" then [("contract_marketagreement_type", s)] else []
    | none => []
   else [])

/-- One fragment appended to `series[delta_text]`: its frequency key, its
rows (`none` value = NaN left by a leading forward-fill gap), and the
auxiliary columns broadcast over the fragment. -/
structure Frag where
  freq : String
  rows : List (Int × Option String)
  aux : List (String × String)
  deriving DecidableEq, Repr

/-- The body of the period loop of `_parse_timeseries_generic` for one
period: `.ok none` is the `continue` that discards a period whose `data`
dict has exactly one entry with value `"0"`; otherwise the sorted series,
forward-filled over `date_range(start, end - delta, freq=delta_text)` when
the document's curve type is `A03`, with the requested auxiliary columns
attached. -/
def periodSeries (curvetype : String) (aux : List (String × String)) (p : Period) :
    Except ParseError (Option Frag) := do
  let delta_text ← resolutionToTimedelta p.resolution
  match pdFreqTickMs delta_text with
  | none => .error .calendarUnmodelled
  | some delta =>
    let data := buildData p.start delta p.points
    if data.length == 1 && ((data.map Prod.snd).headD "" == "0") then
      .ok none
    else
      let S := sortIndex data
      let rows : List (Int × Option String) :=
        if curvetype == "A03" then
          ffill ((dateRangeIncl p.start (p.endv - delta) delta).map (fun t => (t, S.lookup t)))
        else
          S.map (fun kv => (kv.1, some kv.2))
      .ok (some ⟨delta_text, rows, aux⟩)

/-- The initial `series = {resolution: [] for resolution in RESOLUTIONS.values()}`
dict, in insertion order. -/
def seriesInit : List (String × List Frag) :=
  RESOLUTIONS.map (fun kv => (kv.2, ([] : List Frag)))

/-- `if delta_text not in series: series[delta_text] = []` followed by
`series[delta_text].append(S)`. -/
def dictAppend (dict : List (String × List Frag)) (k : String) (f : Frag) :
    List (String × List Frag) :=
  if dict.any (fun e => e.1 == k) then
    dict.map (fun e => if e.1 == k then (e.1, e.2 ++ [f]) else e)
  else dict ++ [(k, [f])]

/-- The period loop over an explicit period list and running dict: a
discarded period leaves the dict unchanged, a retained fragment is
appended to its resolution's bucket, an error aborts the whole parse. -/
def periodFold (ct : String) (aux : List (String × String)) :
    List Period → List (String × List Frag) → Except ParseError (List (String × List Frag))
  | [], dict => .ok dict
  | p :: ps, dict => do
    match ← periodSeries ct aux p with
    | none => periodFold ct aux ps dict
    | some f => periodFold ct aux ps (dictAppend dict f.freq f)

/-- The whole period loop: fold `periodSeries` over the document's periods,
appending each retained fragment to its resolution's bucket. -/
def foldPeriods (doc : TsDoc) (opts : Opts) : Except ParseError (List (String × List Frag)) :=
  periodFold doc.curvetype (auxColumns doc opts) doc.periods seriesInit

/-- A concatenated row before the float cast: timestamp, value text (`none`
= NaN), attached auxiliary columns. -/
abbrev RowS := Int × Option String × List (String × String)

/-- A row after `astype(float)`: the value is an exact rational. -/
abbrev RowQ := Int × Option ℚ × List (String × String)

/-- Rows of one fragment, each carrying the fragment's broadcast auxiliary
columns. -/
def fragRows (f : Frag) : List RowS :=
  f.rows.map (fun tv => (tv.1, tv.2, f.aux))

/-- `pd.concat(S).sort_index()` on the concatenated rows of a bucket. -/
def sortRows (rs : List RowS) : List RowS :=
  rs.insertionSort keyLe

/-- Model of Python `float(...)` on the plain decimal literals the API
emits: optional sign, digits, optional single decimal point (no exponent,
infinity or NaN forms).  `none` models the `ValueError` of a non-numeric
token. -/
def natFromDigits (cs : List Char) : Nat :=
  cs.foldl (fun n c => n * 10 + (c.toNat - 48)) 0

def pyFloatCore (cs : List Char) : Option ℚ :=
  let ip := cs.takeWhile Char.isDigit
  let rest := cs.dropWhile Char.isDigit
  match rest with
  | [] => if ip.isEmpty then none else some (natFromDigits ip : ℚ)
  | '.' :: fr =>
    if fr.all Char.isDigit && !(ip.isEmpty && fr.isEmpty) then
      some ((natFromDigits ip : ℚ) + (natFromDigits fr : ℚ) / (10 ^ fr.length : ℚ))
    else none
  | _ => none

def pyFloat (s : String) : Option ℚ :=
  match s.data with
  | [] => none
  | '+' :: rest => pyFloatCore rest
  | '-' :: rest => (pyFloatCore rest).map Neg.neg
  | cs => pyFloatCore cs

/-- `astype(float)` on one row; a NaN stays NaN, a non-numeric text raises
(spec: `MalformedPointError`). -/
def castRow (r : RowS) : Except ParseError RowQ :=
  match r.2.1 with
  | none => .ok (r.1, none, r.2.2)
  | some s =>
    match pyFloat s with
    | some q => .ok (r.1, some q, r.2.2)
    | none => .error .malformedPoint

def castRows (rs : List RowS) : Except ParseError (List RowQ) :=
  rs.mapM castRow

/-- Body of the `for freq, S in series.items()` loop (lines 144-152): an
empty bucket becomes `None`; otherwise concatenate, sort by timestamp and
cast the value column to float. -/
def castEntry (fs : List Frag) : Except ParseError (Option (List RowQ)) :=
  if fs.isEmpty then .ok none
  else do
    let q ← castRows (sortRows ((fs.map fragRows).flatten))
    .ok (some q)

/-- The per-resolution dict right before the `merge_series` decision. -/
def seriesDict (doc : TsDoc) (opts : Opts) :
    Except ParseError (List (String × Option (List RowQ))) := do
  let dict ← foldPeriods doc opts
  dict.mapM (fun e => do
    let v ← castEntry e.2
    pure (e.1, v))

/-- Result of `_parse_timeseries_generic`: the per-resolution dict, or (in
`merge_series` mode) one concatenation of the non-`None` buckets in dict
order — `pd.DataFrame()` is the empty row list. -/
inductive GenericResult where
  | byRes : List (String × Option (List RowQ)) → GenericResult
  | merged : List RowQ → GenericResult

/-- `_parse_timeseries_generic` (with the per-point XML extraction already
performed, see module docstring). -/
def parseTimeseriesGeneric (doc : TsDoc) (opts : Opts) (mergeSeries : Bool) :
    Except ParseError GenericResult := do
  let dict ← seriesDict doc opts
  if mergeSeries then
    .ok (.merged ((dict.filterMap Prod.snd).flatten))
  else
    .ok (.byRes dict)

/-- One row of a parsed unavailability frame: the outage interval's start
and end instants (the other columns do not enter the window filter). -/
structure UnavRecord where
  start : Int
  endv : Int
  deriving DecidableEq, Repr

/-- The window filter applied by `EntsoePandasClient._query_unavailability`
(entsoe.py line 3562) and `query_unavailability_transmission` (line 3708):
`df = df[(df["start"] < end) | (df["end"] > start)]`.  Note the `|`. -/
def unavailabilityWindowFilter (records : List UnavRecord) (wstart wend : Int) :
    List UnavRecord :=
  records.filter (fun r => decide (r.start < wend) || decide (r.endv > wstart))

/-- Error surfaced by the calling layer, not the parsing core. -/
inductive QueryError where
  | noMatchingData
  deriving DecidableEq, Repr

/-- The emptiness check of `EntsoePandasClient._query_day_ahead_prices`
(entsoe.py lines 2037-2039): `if len(series) == 0: raise NoMatchingDataError`. -/
def dayAheadLengthCheck (rows : List RowQ) : Except QueryError (List RowQ) :=
  if rows.length == 0 then .error .noMatchingData else .ok rows

/-! ## Helper lemmas -/

theorem lookup_isSome_iff_mem_keys {β : Type} (a : String) (l : List (String × β)) :
    (List.lookup a l).isSome ↔ a ∈ l.map Prod.fst := by
  induction l with
  | nil => simp [List.lookup]
  | cons kv rest ih =>
    obtain ⟨k, v⟩ := kv
    by_cases h : a = k
    · subst h; simp [List.lookup_cons]
    · have hb : (a == k) = false := by
        rw [beq_eq_false_iff_ne]; exact h
      simp [List.lookup_cons, hb, ih, h]

theorem lookup_mem_values {α β : Type} [BEq α] (a : α) (b : β) :
    ∀ l : List (α × β), List.lookup a l = some b → b ∈ l.map Prod.snd := by
  intro l
  induction l with
  | nil => intro h; simp [List.lookup] at h
  | cons kv rest ih =>
    intro h
    obtain ⟨k, v⟩ := kv
    rw [List.lookup_cons] at h
    cases hb : (a == k) with
    | true =>
      rw [hb] at h
      simp only [Option.some.injEq] at h
      subst h
      exact List.mem_cons_self _ _
    | false =>
      rw [hb] at h
      exact List.mem_cons_of_mem _ (ih h)

theorem pdFreqTickMs_pos (freq : String) (d : Int) (h : pdFreqTickMs freq = some d) :
    0 < d := by
  have hmem := lookup_mem_values freq d _ h
  simp only [pdFreqTickMs] at hmem ⊢
  simp only [List.map_cons, List.map_nil, List.mem_cons, List.not_mem_nil, or_false] at hmem
  rcases hmem with rfl | rfl | rfl | rfl | rfl | rfl | rfl <;> decide

theorem one_lt_length_dedup_iff {α : Type} [DecidableEq α] (l : List α) :
    1 < l.dedup.length ↔ ∃ a ∈ l, ∃ b ∈ l, a ≠ b := by
  constructor
  · intro h
    match hd : l.dedup with
    | [] => rw [hd] at h; simp at h
    | [x] => rw [hd] at h; simp at h
    | x :: y :: rest =>
      have hnd := l.nodup_dedup
      rw [hd] at hnd
      have hxy : x ≠ y := by
        intro he
        subst he
        exact (List.nodup_cons.mp hnd).1 (List.mem_cons_self _ _)
      have hx : x ∈ l := List.mem_dedup.mp (by rw [hd]; exact List.mem_cons_self _ _)
      have hy : y ∈ l :=
        List.mem_dedup.mp (by rw [hd]; exact List.mem_cons_of_mem _ (List.mem_cons_self _ _))
      exact ⟨x, hx, y, hy, hxy⟩
  · rintro ⟨a, ha, b, hb, hab⟩
    match hd : l.dedup with
    | [] =>
      have : l = [] := (List.dedup_eq_nil _).mp hd
      subst this
      simp at ha
    | [x] =>
      have ha' : a ∈ l.dedup := List.mem_dedup.mpr ha
      have hb' : b ∈ l.dedup := List.mem_dedup.mpr hb
      rw [hd] at ha' hb'
      simp only [List.mem_singleton] at ha' hb'
      exact absurd (ha'.trans hb'.symm) hab
    | x :: y :: rest =>
      simp only [List.length_cons]
      omega

/-- Spec-side formulation of "the generated sequence crosses a DST
transition in the target zone": two generated instants carry different DST
offsets. -/
def crossesDstChange (z : Tz) (l : List Int) : Prop :=
  ∃ t1 ∈ l, ∃ t2 ∈ l, z.dst t1 ≠ z.dst t2

/-- Spec-side formulation of the no-timezone drop condition: the sequence
has a defined minimum consecutive gap of at least one day (hence at least
two elements), and the naive end hour equals the start hour plus one. -/
def noTzDropSpec (s e : Int) (l : List Int) : Prop :=
  (∃ m, minDiff l = some m ∧ msPerDay ≤ m) ∧ hourOf e = hourOf s + 1

theorem dstJump_iff (z : Tz) (l : List Int) :
    dstJump z l = true ↔ crossesDstChange z l := by
  unfold dstJump crossesDstChange
  rw [decide_eq_true_iff, one_lt_length_dedup_iff]
  constructor
  · rintro ⟨a, ha, b, hb, hab⟩
    obtain ⟨t1, ht1, rfl⟩ := List.mem_map.mp ha
    obtain ⟨t2, ht2, rfl⟩ := List.mem_map.mp hb
    exact ⟨t1, ht1, t2, ht2, hab⟩
  · rintro ⟨t1, ht1, t2, ht2, h⟩
    exact ⟨z.dst t1, List.mem_map_of_mem _ ht1, z.dst t2, List.mem_map_of_mem _ ht2, h⟩

theorem dropFlagTz_eq_true_iff (z : Tz) (freq : String) (l : List Int) :
    dropFlagTz z freq l = true ↔ crossesDstChange z l ∧ freq = "7D" := by
  unfold dropFlagTz
  rw [Bool.and_eq_true, beq_iff_eq]
  exact and_congr (dstJump_iff z l) Iff.rfl

theorem dropFlagNoTz_eq_true_iff (s e : Int) (l : List Int) :
    dropFlagNoTz s e l = true ↔ noTzDropSpec s e l := by
  unfold dropFlagNoTz noTzDropSpec
  rw [Bool.and_eq_true, beq_iff_eq]
  apply and_congr _ Iff.rfl
  cases hm : minDiff l with
  | none => simp
  | some m => simp [decide_eq_true_iff]

theorem dropFlagTz_two_le (z : Tz) (freq : String) (l : List Int)
    (h : dropFlagTz z freq l = true) : 2 ≤ l.length := by
  unfold dropFlagTz dstJump at h
  rw [Bool.and_eq_true] at h
  have h1 := decide_eq_true_iff.mp h.1
  have h2 : (l.map z.dst).dedup.length ≤ l.length := by
    have := List.Sublist.length_le ((l.map z.dst).dedup_sublist)
    rwa [List.length_map] at this
  omega

theorem dropFlagNoTz_two_le (s e : Int) (l : List Int)
    (h : dropFlagNoTz s e l = true) : 2 ≤ l.length := by
  match l with
  | [] => simp [dropFlagNoTz, minDiff, consecDiffs] at h
  | [a] => simp [dropFlagNoTz, minDiff, consecDiffs] at h
  | a :: b :: r => simp only [List.length_cons]; omega

/-- Unfolding of `_parse_datetimeindex` for a resolution with a fixed tick. -/
theorem parseDatetimeindex_tick (start endv : Int) (res freq : String) (d : Int)
    (tz : Option Tz)
    (hres : resolutionToTimedelta res = .ok freq) (hd : pdFreqTickMs freq = some d) :
    parseDatetimeindex start endv res tz =
      match tz with
      | some z => .ok ⟨if dropFlagTz z freq (dateRangeLeft start endv d) then
          (dateRangeLeft start endv d).dropLast else dateRangeLeft start endv d, .utc⟩
      | none => .ok ⟨if dropFlagNoTz start endv (dateRangeLeft start endv d) then
          (dateRangeLeft start endv d).dropLast else dateRangeLeft start endv d, .asInput⟩ := by
  unfold parseDatetimeindex
  rw [hres]
  dsimp only [Bind.bind, Except.bind]
  rw [hd]

theorem dateRangeLeft_length_of_dvd (s e d : Int) (hd : 0 < d) (hdvd : d ∣ (e - s))
    (hle : s ≤ e) : (dateRangeLeft s e d).length = ((e - s) / d).toNat := by
  obtain ⟨m, hm⟩ := hdvd
  unfold dateRangeLeft
  by_cases hse : s < e
  · rw [if_pos ⟨hd, hse⟩, List.length_map, List.length_range]
    congr 1
    have hd' : d ≠ 0 := ne_of_gt hd
    rw [hm]
    have h1 : d * m + d - 1 = d - 1 + m * d := by ring
    have hz : (d - 1) / d = 0 := Int.ediv_eq_zero_of_lt (by omega) (by omega)
    rw [h1, Int.add_mul_ediv_right _ _ hd', hz, zero_add,
      Int.mul_ediv_cancel_left _ hd']
  · have he : e = s := le_antisymm (not_lt.mp hse) hle
    rw [if_neg (fun hc => absurd hc.2 hse)]
    simp [he, sub_self, Int.zero_ediv]

/-! ## Claim theorems -/

/-- C1 (code evaluation at the failing input): the claim says a record
lying entirely before the requested window (`record.end < window.start`)
is dropped, but the filter of `_query_unavailability` /
`query_unavailability_transmission` combines the two comparisons with `|`
instead of `and`, so the record `[0, 10)` is retained against the window
`[20, 30)` even though its end `10` precedes the window start `20`. -/
theorem c1_filter_keeps_record_entirely_before_window :
    (({ start := 0, endv := 10 } : UnavRecord).endv < 20) ∧
    unavailabilityWindowFilter [{ start := 0, endv := 10 }] 20 30 =
      [{ start := 0, endv := 10 }] := by
  decide

/-- C6: `_resolution_to_timedelta` succeeds exactly on the nine codes of
the closed `RESOLUTIONS` set and raises (spec: `UnsupportedResolutionError`)
on every other code — no default step is ever substituted. -/
theorem c6_resolution_closed_set (s : String) :
    ((∃ d, resolutionToTimedelta s = .ok d) ↔
      s ∈ ["PT60M", "P1Y", "PT15M", "PT30M", "P1D", "P7D", "P1M", "PT1M", "PT4S"]) ∧
    (resolutionToTimedelta s = .error .unsupportedResolution ↔
      ¬ s ∈ ["PT60M", "P1Y", "PT15M", "PT30M", "P1D", "P7D", "P1M", "PT1M", "PT4S"]) := by
  have hkeys : RESOLUTIONS.map Prod.fst =
      ["PT60M", "P1Y", "PT15M", "PT30M", "P1D", "P7D", "P1M", "PT1M", "PT4S"] := rfl
  have h := lookup_isSome_iff_mem_keys (β := String) s RESOLUTIONS
  rw [hkeys] at h
  constructor
  · rw [← h]
    unfold resolutionToTimedelta
    cases hl : List.lookup s RESOLUTIONS <;> simp [hl]
  · rw [← h]
    unfold resolutionToTimedelta
    cases hl : List.lookup s RESOLUTIONS <;> simp [hl]

/-- C2 is refuted at a concrete no-timezone input: with resolution `P7D`
(step 604800000 ms, at least 1 day) over the window `[0, 25h)` the
generated index is the singleton `[0]` and the naive end hour (1) equals
the start hour (0) plus one, so rule (b) of the claim demands the final
element be dropped; the code compares the NaT diff-minimum as false and
returns the index intact. -/
theorem c2_counterexample_singleton_index :
    resolutionToTimedelta "P7D" = .ok "7D" ∧
    pdFreqTickMs "7D" = some 604800000 ∧
    msPerDay ≤ 604800000 ∧
    hourOf 90000000 = hourOf 0 + 1 ∧
    dateRangeLeft 0 90000000 604800000 = [0] ∧
    parseDatetimeindex 0 90000000 "P7D" none = .ok ⟨[0], .asInput⟩ :=
  ⟨rfl, rfl, by decide, by decide, by decide, rfl⟩

/-- C2 as amended: the final element is dropped exactly when (a) a
timezone is supplied, the generated sequence attains more than one
distinct DST offset in that zone (any DST transition, not only fall-back)
and the step is the weekly `7D`, or (b) no timezone is supplied, the
sequence has a defined minimum consecutive gap of at least one day (hence
at least two elements) and the naive end hour equals the start hour plus
one; no other combination drops an element. -/
theorem c2_amended_drop_conditions (start endv : Int) (res freq : String) (d : Int)
    (tz : Option Tz)
    (hres : resolutionToTimedelta res = .ok freq) (hd : pdFreqTickMs freq = some d) :
    (∀ z, tz = some z →
      ((crossesDstChange z (dateRangeLeft start endv d) ∧ freq = "7D") →
        parseDatetimeindex start endv res tz =
          .ok ⟨(dateRangeLeft start endv d).dropLast, .utc⟩) ∧
      (¬ (crossesDstChange z (dateRangeLeft start endv d) ∧ freq = "7D") →
        parseDatetimeindex start endv res tz =
          .ok ⟨dateRangeLeft start endv d, .utc⟩)) ∧
    (tz = none →
      (noTzDropSpec start endv (dateRangeLeft start endv d) →
        parseDatetimeindex start endv res tz =
          .ok ⟨(dateRangeLeft start endv d).dropLast, .asInput⟩) ∧
      (¬ noTzDropSpec start endv (dateRangeLeft start endv d) →
        parseDatetimeindex start endv res tz =
          .ok ⟨dateRangeLeft start endv d, .asInput⟩)) := by
  constructor
  · rintro z rfl
    rw [parseDatetimeindex_tick start endv res freq d (some z) hres hd]
    dsimp only
    constructor
    · intro hc
      rw [if_pos ((dropFlagTz_eq_true_iff z freq _).mpr hc)]
    · intro hc
      rw [if_neg (fun h => hc ((dropFlagTz_eq_true_iff z freq _).mp h))]
  · rintro rfl
    rw [parseDatetimeindex_tick start endv res freq d none hres hd]
    dsimp only
    constructor
    · intro hc
      rw [if_pos ((dropFlagNoTz_eq_true_iff start endv _).mpr hc)]
    · intro hc
      rw [if_neg (fun h => hc ((dropFlagNoTz_eq_true_iff start endv _).mp h))]

/-- Example timezone with one offset change inside `[0, 2.5 weeks)`. -/
def tzEx : Tz := ⟨fun t => if t < 700000000 then 0 else 3600000⟩

/-- Witness for the amended C2: a weekly range crossing `tzEx`'s offset
change has its final element dropped. -/
theorem c2_amended_drop_conditions_witness :
    parseDatetimeindex 0 1512000000 "P7D" (some tzEx) = .ok ⟨[0, 604800000], .utc⟩ := by
  have h := (c2_amended_drop_conditions 0 1512000000 "P7D" "7D" 604800000 (some tzEx)
    rfl rfl).1 tzEx rfl
  have hcross : crossesDstChange tzEx (dateRangeLeft 0 1512000000 604800000) ∧
      ("7D" : String) = "7D" := by
    refine ⟨⟨0, ?_, 1209600000, ?_, ?_⟩, rfl⟩ <;> decide
  have hres := h.1 hcross
  rw [show (dateRangeLeft 0 1512000000 604800000).dropLast = [0, 604800000] from by decide]
    at hres
  exact hres

/-- Whether the DST-correction branch of `_parse_datetimeindex` fires for
the given inputs. -/
def dropFired (start endv : Int) (freq : String) (d : Int) (tz : Option Tz) : Bool :=
  match tz with
  | some z => dropFlagTz z freq (dateRangeLeft start endv d)
  | none => dropFlagNoTz start endv (dateRangeLeft start endv d)

/-- C3: for a period whose fixed-tick step divides `end - start`, the
returned index has exactly `(end - start) / step` elements, except when
one of the two DST-correction branches fires, in which case it has exactly
one element fewer. -/
theorem c3_index_length (start endv : Int) (res freq : String) (d : Int)
    (tz : Option Tz) (idx : DTIndex)
    (hres : resolutionToTimedelta res = .ok freq) (hd : pdFreqTickMs freq = some d)
    (hdvd : d ∣ (endv - start)) (hle : start ≤ endv)
    (hok : parseDatetimeindex start endv res tz = .ok idx) :
    (idx.times.length = ((endv - start) / d).toNat ∧
      dropFired start endv freq d tz = false) ∨
    (idx.times.length + 1 = ((endv - start) / d).toNat ∧
      dropFired start endv freq d tz = true) := by
  have hdpos := pdFreqTickMs_pos freq d hd
  have hlen := dateRangeLeft_length_of_dvd start endv d hdpos hdvd hle
  rw [parseDatetimeindex_tick start endv res freq d tz hres hd] at hok
  cases tz with
  | some z =>
    dsimp only at hok
    cases hflag : dropFlagTz z freq (dateRangeLeft start endv d) with
    | true =>
      have htwo := dropFlagTz_two_le z freq _ hflag
      have hsplit : (if dropFlagTz z freq (dateRangeLeft start endv d) then
          (dateRangeLeft start endv d).dropLast else dateRangeLeft start endv d) =
          (dateRangeLeft start endv d).dropLast := by rw [hflag]; rfl
      rw [hsplit] at hok
      rw [Except.ok.injEq] at hok
      subst hok
      right
      refine ⟨?_, by simpa [dropFired] using hflag⟩
      simp only [List.length_dropLast]
      omega
    | false =>
      have hsplit : (if dropFlagTz z freq (dateRangeLeft start endv d) then
          (dateRangeLeft start endv d).dropLast else dateRangeLeft start endv d) =
          dateRangeLeft start endv d := by rw [hflag]; rfl
      rw [hsplit] at hok
      rw [Except.ok.injEq] at hok
      subst hok
      left
      exact ⟨hlen, by simpa [dropFired] using hflag⟩
  | none =>
    dsimp only at hok
    cases hflag : dropFlagNoTz start endv (dateRangeLeft start endv d) with
    | true =>
      have htwo := dropFlagNoTz_two_le start endv _ hflag
      have hsplit : (if dropFlagNoTz start endv (dateRangeLeft start endv d) then
          (dateRangeLeft start endv d).dropLast else dateRangeLeft start endv d) =
          (dateRangeLeft start endv d).dropLast := by rw [hflag]; rfl
      rw [hsplit] at hok
      rw [Except.ok.injEq] at hok
      subst hok
      right
      refine ⟨?_, by simpa [dropFired] using hflag⟩
      simp only [List.length_dropLast]
      omega
    | false =>
      have hsplit : (if dropFlagNoTz start endv (dateRangeLeft start endv d) then
          (dateRangeLeft start endv d).dropLast else dateRangeLeft start endv d) =
          dateRangeLeft start endv d := by rw [hflag]; rfl
      rw [hsplit] at hok
      rw [Except.ok.injEq] at hok
      subst hok
      left
      exact ⟨hlen, by simpa [dropFired] using hflag⟩

/-- Witness for C3 at an hourly two-step window with no DST correction. -/
theorem c3_index_length_witness :
    ((⟨[0, 3600000], .asInput⟩ : DTIndex).times.length =
        ((7200000 - 0 : Int) / 3600000).toNat ∧
      dropFired 0 7200000 "60min" 3600000 none = false) ∨
    ((⟨[0, 3600000], .asInput⟩ : DTIndex).times.length + 1 =
        ((7200000 - 0 : Int) / 3600000).toNat ∧
      dropFired 0 7200000 "60min" 3600000 none = true) :=
  c3_index_length 0 7200000 "PT60M" "60min" 3600000 none ⟨[0, 3600000], .asInput⟩
    rfl rfl ⟨2, by norm_num⟩ (by norm_num) rfl

/-- C9: when a timezone is supplied, the returned index is always
converted back to UTC, and its instants are either the full generated
range or that range without its final element — both independent of the
supplied zone, which therefore only steers the drop decision. -/
theorem c9_timezone_output_is_utc (start endv : Int) (res : String) (z : Tz)
    (idx : DTIndex)
    (hok : parseDatetimeindex start endv res (some z) = .ok idx) :
    idx.zone = .utc ∧
    ∃ freq d, resolutionToTimedelta res = .ok freq ∧ pdFreqTickMs freq = some d ∧
      (idx.times = dateRangeLeft start endv d ∨
       idx.times = (dateRangeLeft start endv d).dropLast) := by
  cases hres : resolutionToTimedelta res with
  | error e =>
    unfold parseDatetimeindex at hok
    rw [hres] at hok
    simp [Bind.bind, Except.bind] at hok
  | ok freq =>
    cases hd : pdFreqTickMs freq with
    | none =>
      unfold parseDatetimeindex at hok
      rw [hres] at hok
      dsimp only [Bind.bind, Except.bind] at hok
      rw [hd] at hok
      simp at hok
    | some d =>
      rw [parseDatetimeindex_tick start endv res freq d (some z) hres hd] at hok
      dsimp only at hok
      rw [Except.ok.injEq] at hok
      subst hok
      refine ⟨rfl, freq, d, rfl, hd, ?_⟩
      dsimp only
      by_cases hflag : dropFlagTz z freq (dateRangeLeft start endv d) = true
      · right; rw [if_pos hflag]
      · left; rw [if_neg hflag]

/-- Witness for C9 at an hourly one-step window under a constant-offset
zone. -/
theorem c9_timezone_output_is_utc_witness :
    (⟨[0], .utc⟩ : DTIndex).zone = .utc ∧
    ∃ freq d, resolutionToTimedelta "PT60M" = .ok freq ∧ pdFreqTickMs freq = some d ∧
      ((⟨[0], .utc⟩ : DTIndex).times = dateRangeLeft 0 3600000 d ∨
       (⟨[0], .utc⟩ : DTIndex).times = (dateRangeLeft 0 3600000 d).dropLast) :=
  c9_timezone_output_is_utc 0 3600000 "PT60M" ⟨fun _ => 0⟩ ⟨[0], .utc⟩ rfl

/-- C4: for an `A03` (interval-repeat) period with points only at
positions 1, 5 and 9 over 9 hourly steps, the parser reindexes onto all
nine steps of `[start, end - step]` and forward-fills: positions 2-4
repeat position 1's value and positions 6-8 repeat position 5's value,
giving exactly 9 values. -/
theorem c4_a03_forward_fill (a b c : String) :
    periodSeries "A03" [] ⟨0, 32400000, "PT60M", [⟨1, a⟩, ⟨5, b⟩, ⟨9, c⟩]⟩ =
      .ok (some ⟨"60min",
        [(0, some (stripCommas a)), (3600000, some (stripCommas a)),
         (7200000, some (stripCommas a)), (10800000, some (stripCommas a)),
         (14400000, some (stripCommas b)), (18000000, some (stripCommas b)),
         (21600000, some (stripCommas b)), (25200000, some (stripCommas b)),
         (28800000, some (stripCommas c))], []⟩) := by
  have h1 : buildData 0 3600000 [⟨1, a⟩, ⟨5, b⟩, ⟨9, c⟩] =
      [(0, stripCommas a), (14400000, stripCommas b), (28800000, stripCommas c)] := rfl
  have h2 : sortIndex [(0, stripCommas a), (14400000, stripCommas b), (28800000, stripCommas c)] =
      [(0, stripCommas a), (14400000, stripCommas b), (28800000, stripCommas c)] := rfl
  have hr : dateRangeIncl 0 (32400000 - 3600000) 3600000 =
      [0, 3600000, 7200000, 10800000, 14400000, 18000000, 21600000, 25200000, 28800000] := by
    decide
  unfold periodSeries
  dsimp only
  rw [show resolutionToTimedelta "PT60M" = Except.ok "60min" from rfl]
  dsimp only [Bind.bind, Except.bind]
  rw [show pdFreqTickMs "60min" = some 3600000 from rfl]
  dsimp only
  rw [h1, h2, hr]
  rfl

/-- A period whose single point carries the (comma-stripped) text `"0"` is
discarded by the `continue` of `_parse_timeseries_generic`. -/
theorem periodSeries_discard (ct : String) (aux : List (String × String)) (p : Period)
    (pt : Point) (freq : String) (d : Int)
    (hpts : p.points = [pt]) (hval : stripCommas pt.valueText = "0")
    (hres : resolutionToTimedelta p.resolution = .ok freq)
    (htick : pdFreqTickMs freq = some d) :
    periodSeries ct aux p = .ok none := by
  unfold periodSeries
  rw [hres]
  dsimp only [Bind.bind, Except.bind]
  rw [htick]
  dsimp only
  rw [hpts]
  have hdata : buildData p.start d [pt] =
      [(p.start + (pt.position - 1) * d, stripCommas pt.valueText)] := rfl
  rw [hdata, hval]
  rfl

theorem periodFold_cons (ct : String) (aux : List (String × String)) (p : Period)
    (ps : List Period) (dict : List (String × List Frag)) :
    periodFold ct aux (p :: ps) dict =
      (do
        match ← periodSeries ct aux p with
        | none => periodFold ct aux ps dict
        | some f => periodFold ct aux ps (dictAppend dict f.freq f)) := rfl

theorem periodFold_middle_none (ct : String) (aux : List (String × String))
    (pre post : List Period) (p : Period) (dict : List (String × List Frag))
    (hp : periodSeries ct aux p = .ok none) :
    periodFold ct aux (pre ++ p :: post) dict = periodFold ct aux (pre ++ post) dict := by
  induction pre generalizing dict with
  | nil =>
    show periodFold ct aux (p :: post) dict = periodFold ct aux post dict
    rw [periodFold_cons, hp]
    rfl
  | cons q pre ih =>
    show periodFold ct aux (q :: (pre ++ p :: post)) dict =
      periodFold ct aux (q :: (pre ++ post)) dict
    rw [periodFold_cons, periodFold_cons]
    cases hq : periodSeries ct aux q with
    | error e => rfl
    | ok r =>
      cases r with
      | none => exact ih dict
      | some f => exact ih (dictAppend dict f.freq f)

theorem periodFold_all_none (ct : String) (aux : List (String × String))
    (ps : List Period) (dict : List (String × List Frag))
    (h : ∀ p ∈ ps, periodSeries ct aux p = .ok none) :
    periodFold ct aux ps dict = .ok dict := by
  induction ps generalizing dict with
  | nil => rfl
  | cons p rest ih =>
    rw [periodFold_cons, h p (List.mem_cons_self _ _)]
    exact ih dict (fun q hq => h q (List.mem_cons_of_mem _ hq))

/-- C5: a period whose only point carries the textual value `"0"` (after
comma stripping) is discarded entirely: the parse result is identical to
that of the same document without that period, so it contributes no rows
and no `0.0` data point. -/
theorem c5_single_zero_period_contributes_nothing
    (ct : String) (cs dr co : Option String) (pre post : List Period) (p : Period)
    (opts : Opts) (merge : Bool) (pt : Point) (freq : String) (d : Int)
    (hpts : p.points = [pt]) (hval : stripCommas pt.valueText = "0")
    (hres : resolutionToTimedelta p.resolution = .ok freq)
    (htick : pdFreqTickMs freq = some d) :
    parseTimeseriesGeneric ⟨ct, cs, dr, co, pre ++ p :: post⟩ opts merge =
      parseTimeseriesGeneric ⟨ct, cs, dr, co, pre ++ post⟩ opts merge := by
  have hp : periodSeries ct (auxColumns ⟨ct, cs, dr, co, pre ++ post⟩ opts) p = .ok none :=
    periodSeries_discard _ _ _ _ _ _ hpts hval hres htick
  unfold parseTimeseriesGeneric seriesDict foldPeriods
  dsimp only
  rw [show auxColumns ⟨ct, cs, dr, co, pre ++ p :: post⟩ opts =
      auxColumns ⟨ct, cs, dr, co, pre ++ post⟩ opts from rfl]
  rw [periodFold_middle_none _ _ _ _ _ _ hp]

/-- Witness for C5: a one-period document whose period holds the single
point `"0"` parses identically to the empty document. -/
theorem c5_single_zero_period_contributes_nothing_witness :
    parseTimeseriesGeneric ⟨"A01", none, none, none, [⟨0, 3600000, "PT60M", [⟨1, "0"⟩]⟩]⟩
      ⟨false, false, false⟩ true =
    parseTimeseriesGeneric ⟨"A01", none, none, none, []⟩ ⟨false, false, false⟩ true :=
  c5_single_zero_period_contributes_nothing "A01" none none none [] []
    ⟨0, 3600000, "PT60M", [⟨1, "0"⟩]⟩ ⟨false, false, false⟩ true ⟨1, "0"⟩ "60min" 3600000
    rfl rfl rfl rfl

/-- C10: when every period of a document is discarded (or there are none),
`_parse_timeseries_generic` in `merge_series` mode returns the empty
DataFrame rather than raising; the no-matching-data error is raised only
by the calling layer (`_query_day_ahead_prices`) on the empty result. -/
theorem c10_all_discarded_returns_empty (doc : TsDoc) (opts : Opts)
    (h : ∀ p ∈ doc.periods, periodSeries doc.curvetype (auxColumns doc opts) p = .ok none) :
    parseTimeseriesGeneric doc opts true = .ok (.merged []) ∧
    dayAheadLengthCheck [] = .error .noMatchingData := by
  refine ⟨?_, rfl⟩
  unfold parseTimeseriesGeneric seriesDict foldPeriods
  rw [periodFold_all_none _ _ _ _ h]
  rfl

/-- Witness for C10: a document whose only period is discarded by the
single-`"0"`-point rule yields the empty merged result, on which the
caller's length check raises the no-matching-data error. -/
theorem c10_all_discarded_returns_empty_witness :
    parseTimeseriesGeneric ⟨"A01", none, none, none, [⟨0, 3600000, "PT60M", [⟨1, "0"⟩]⟩]⟩
      ⟨false, false, false⟩ true = .ok (.merged []) ∧
    dayAheadLengthCheck [] = .error .noMatchingData := by
  apply c10_all_discarded_returns_empty
  intro p hp
  rw [List.mem_singleton] at hp
  subst hp
  exact periodSeries_discard _ _ _ ⟨1, "0"⟩ "60min" 3600000 rfl rfl rfl rfl

/-- A one-period, one-point document used to state C7 for an arbitrary
point value text. -/
def singlePointDoc (s : String) : TsDoc :=
  ⟨"A01", none, none, none, [⟨0, 3600000, "PT60M", [⟨1, s⟩]⟩]⟩

theorem periodSeries_singlePoint (s : String) (hnz : stripCommas s ≠ "0") :
    periodSeries "A01" [] ⟨0, 3600000, "PT60M", [⟨1, s⟩]⟩ =
      .ok (some ⟨"60min", [(0, some (stripCommas s))], []⟩) := by
  have hb : (stripCommas s == "0") = false := by
    rw [beq_eq_false_iff_ne]; exact hnz
  unfold periodSeries
  rw [show resolutionToTimedelta "PT60M" = Except.ok "60min" from rfl]
  dsimp only [Bind.bind, Except.bind]
  rw [show pdFreqTickMs "60min" = some 3600000 from rfl]
  dsimp only
  rw [show buildData 0 3600000 [⟨1, s⟩] = [(0, stripCommas s)] from rfl]
  rw [if_neg (by simp [hb])]
  rfl

/-- C7: point value texts go through comma stripping before the float cast
(`"1,234.5"` becomes the number `1234.5`); a text that is numeric after
stripping ends up as that number in the merged output, and one that is
still non-numeric makes the final cast raise (spec: `MalformedPointError`). -/
theorem c7_comma_strip_and_float_cast (s : String) (hnz : stripCommas s ≠ "0") :
    pyFloat (stripCommas "1,234.5") = some (1234.5 : ℚ) ∧
    (∀ q : ℚ, pyFloat (stripCommas s) = some q →
      parseTimeseriesGeneric (singlePointDoc s) ⟨false, false, false⟩ true =
        .ok (.merged [(0, some q, [])])) ∧
    (pyFloat (stripCommas s) = none →
      parseTimeseriesGeneric (singlePointDoc s) ⟨false, false, false⟩ true =
        .error .malformedPoint) := by
  have hps := periodSeries_singlePoint s hnz
  have hfold : periodFold "A01" [] [⟨0, 3600000, "PT60M", [⟨1, s⟩]⟩] seriesInit =
      .ok (dictAppend seriesInit "60min" ⟨"60min", [(0, some (stripCommas s))], []⟩) := by
    rw [periodFold_cons, hps]; rfl
  have hdict : dictAppend seriesInit "60min" ⟨"60min", [(0, some (stripCommas s))], []⟩ =
      [("60min", [⟨"60min", [(0, some (stripCommas s))], []⟩]), ("12MS", []), ("15min", []),
       ("30min", []), ("1D", []), ("7D", []), ("1MS", []), ("1min", []), ("4D 4h", [])] := rfl
  have hempty : castEntry ([] : List Frag) = .ok none := rfl
  have hsort : sortRows [(0, some (stripCommas s), [])] = [(0, some (stripCommas s), [])] := rfl
  have h1 : pyFloat (stripCommas "1,234.5") = some (1234.5 : ℚ) := by
    rw [show stripCommas "1,234.5" = "1234.5" from by decide]
    show some ((natFromDigits ['1', '2', '3', '4'] : ℚ) +
      (natFromDigits ['5'] : ℚ) / (10 ^ ((['5'] : List Char).length) : ℚ)) = some (1234.5 : ℚ)
    rw [show natFromDigits ['1', '2', '3', '4'] = 1234 from rfl,
      show natFromDigits ['5'] = 5 from rfl]
    norm_num
  refine ⟨h1, ?_, ?_⟩
  · intro q hq
    have hrow : castRow (0, some (stripCommas s), []) = .ok (0, some q, []) := by
      unfold castRow
      dsimp only
      rw [hq]
    have hcast : castEntry [⟨"60min", [(0, some (stripCommas s))], []⟩] =
        .ok (some [(0, some q, [])]) := by
      unfold castEntry
      rw [show ([⟨"60min", [(0, some (stripCommas s))], []⟩] : List Frag).isEmpty = false
        from rfl]
      dsimp only [Bind.bind, Except.bind]
      rw [show ((([⟨"60min", [(0, some (stripCommas s))], []⟩] : List Frag).map
        fragRows).flatten) = [(0, some (stripCommas s), [])] from rfl]
      rw [hsort]
      unfold castRows
      rw [List.mapM_cons, List.mapM_nil]
      rw [hrow]
      rfl
    unfold parseTimeseriesGeneric seriesDict foldPeriods singlePointDoc
    dsimp only
    rw [show auxColumns ⟨"A01", none, none, none, [⟨0, 3600000, "PT60M", [⟨1, s⟩]⟩]⟩
      ⟨false, false, false⟩ = [] from rfl]
    rw [hfold]
    dsimp only [Bind.bind, Except.bind]
    rw [hdict]
    rw [List.mapM_cons, hcast]
    rfl
  · intro hq
    have hrow : castRow (0, some (stripCommas s), []) = .error .malformedPoint := by
      unfold castRow
      dsimp only
      rw [hq]
    have hcast : castEntry [⟨"60min", [(0, some (stripCommas s))], []⟩] =
        .error .malformedPoint := by
      unfold castEntry
      rw [show ([⟨"60min", [(0, some (stripCommas s))], []⟩] : List Frag).isEmpty = false
        from rfl]
      dsimp only [Bind.bind, Except.bind]
      rw [show ((([⟨"60min", [(0, some (stripCommas s))], []⟩] : List Frag).map
        fragRows).flatten) = [(0, some (stripCommas s), [])] from rfl]
      rw [hsort]
      unfold castRows
      rw [List.mapM_cons, List.mapM_nil]
      rw [hrow]
      rfl
    unfold parseTimeseriesGeneric seriesDict foldPeriods singlePointDoc
    dsimp only
    rw [show auxColumns ⟨"A01", none, none, none, [⟨0, 3600000, "PT60M", [⟨1, s⟩]⟩]⟩
      ⟨false, false, false⟩ = [] from rfl]
    rw [hfold]
    dsimp only [Bind.bind, Except.bind]
    rw [hdict]
    rw [List.mapM_cons, hcast]
    rfl

/-- Witness for C7 at the non-numeric token `"N/A"`: the parse fails with
the malformed-point error. -/
theorem c7_comma_strip_and_float_cast_witness :
    pyFloat (stripCommas "1,234.5") = some (1234.5 : ℚ) ∧
    parseTimeseriesGeneric (singlePointDoc "N/A") ⟨false, false, false⟩ true =
      .error .malformedPoint := by
  have h := c7_comma_strip_and_float_cast "N/A" (by decide)
  exact ⟨h.1, h.2.2 (by decide)⟩

/-- Reference list for C8: the retained fragments of the given periods
whose frequency key is `freq`, in document order. -/
def groupFrags (ct : String) (aux : List (String × String)) (freq : String) :
    List Period → Except ParseError (List Frag)
  | [] => .ok []
  | p :: ps => do
    match ← periodSeries ct aux p with
    | none => groupFrags ct aux freq ps
    | some f => do
        let rest ← groupFrags ct aux freq ps
        pure (if f.freq == freq then f :: rest else rest)

theorem groupFrags_cons (ct : String) (aux : List (String × String)) (freq : String)
    (p : Period) (ps : List Period) :
    groupFrags ct aux freq (p :: ps) =
      (do
        match ← periodSeries ct aux p with
        | none => groupFrags ct aux freq ps
        | some f => do
            let rest ← groupFrags ct aux freq ps
            pure (if f.freq == freq then f :: rest else rest)) := rfl

/-- A fragment retained by `periodSeries` always carries one of the nine
frequency keys of `RESOLUTIONS`. -/
theorem periodSeries_freq_mem (ct : String) (aux : List (String × String)) (p : Period)
    (f : Frag) (h : periodSeries ct aux p = .ok (some f)) :
    f.freq ∈ RESOLUTIONS.map Prod.snd := by
  unfold periodSeries at h
  cases hres : resolutionToTimedelta p.resolution with
  | error e => rw [hres] at h; simp [Bind.bind, Except.bind] at h
  | ok delta_text =>
    have hmem : delta_text ∈ RESOLUTIONS.map Prod.snd := by
      unfold resolutionToTimedelta at hres
      cases hl : List.lookup p.resolution RESOLUTIONS with
      | none => rw [hl] at hres; simp at hres
      | some v =>
        rw [hl] at hres
        simp only [Except.ok.injEq] at hres
        subst hres
        exact lookup_mem_values _ _ _ hl
    rw [hres] at h
    dsimp only [Bind.bind, Except.bind] at h
    cases htick : pdFreqTickMs delta_text with
    | none => rw [htick] at h; simp at h
    | some d =>
      rw [htick] at h
      dsimp only at h
      split at h
      · simp at h
      · rw [Except.ok.injEq, Option.some.injEq] at h
        subst h
        exact hmem

theorem any_dictAppend (dict : List (String × List Frag)) (k : String) (f : Frag)
    (fr : String) (h : dict.any (fun e => e.1 == fr) = true) :
    (dictAppend dict k f).any (fun e => e.1 == fr) = true := by
  unfold dictAppend
  by_cases hk : dict.any (fun e => e.1 == k) = true
  · rw [if_pos hk, List.any_map]
    have : ((fun e : String × List Frag => e.1 == fr) ∘
        (fun e : String × List Frag => if e.1 == k then (e.1, e.2 ++ [f]) else e)) =
        (fun e : String × List Frag => e.1 == fr) := by
      funext e
      by_cases he : (e.1 == k) = true <;> simp [Function.comp, he]
    rw [this]
    exact h
  · rw [if_neg hk, List.any_append, h]
    rfl

theorem lookup_cons_eq {β : Type} (a : String) (b : β) (rest : List (String × β)) :
    List.lookup a ((a, b) :: rest) = some b := by
  simp [List.lookup_cons]

theorem lookup_cons_ne {β : Type} (x a : String) (b : β) (rest : List (String × β))
    (h : x ≠ a) : List.lookup x ((a, b) :: rest) = List.lookup x rest := by
  have hb : (x == a) = false := by rw [beq_eq_false_iff_ne]; exact h
  simp [List.lookup_cons, hb]

theorem lookup_map_append (f : Frag) (k freq : String) :
    ∀ dict : List (String × List Frag),
    List.lookup freq (dict.map (fun e => if e.1 == k then (e.1, e.2 ++ [f]) else e)) =
      if freq = k then (List.lookup freq dict).map (fun l => l ++ [f])
      else List.lookup freq dict := by
  intro dict
  induction dict with
  | nil => by_cases h : freq = k <;> simp [List.lookup, h]
  | cons e rest ih =>
    obtain ⟨a, l⟩ := e
    simp only [List.map_cons]
    by_cases hak : a = k
    · subst hak
      rw [show (if (a == a) = true then (a, l ++ [f]) else (a, l)) = (a, l ++ [f]) from by
        rw [beq_self_eq_true]; rfl]
      by_cases hfa : freq = a
      · subst hfa
        rw [lookup_cons_eq, if_pos rfl, lookup_cons_eq]
        rfl
      · rw [lookup_cons_ne freq a (l ++ [f]) _ hfa, ih, if_neg hfa, if_neg hfa,
          lookup_cons_ne freq a l rest hfa]
    · have hb : (a == k) = false := by rw [beq_eq_false_iff_ne]; exact hak
      rw [show (if (a == k) = true then (a, l ++ [f]) else (a, l)) = (a, l) from by
        rw [hb]; rfl]
      by_cases hfa : freq = a
      · subst hfa
        have hfk : freq ≠ k := hak
        rw [lookup_cons_eq, if_neg hfk, lookup_cons_eq]
      · rw [lookup_cons_ne freq a l _ hfa, ih, lookup_cons_ne freq a l rest hfa]

theorem lookup_dictAppend (dict : List (String × List Frag)) (k : String) (f : Frag)
    (hk : dict.any (fun e => e.1 == k) = true) (freq : String) :
    List.lookup freq (dictAppend dict k f) =
      if freq = k then (List.lookup freq dict).map (fun l => l ++ [f])
      else List.lookup freq dict := by
  unfold dictAppend
  rw [if_pos hk]
  exact lookup_map_append f k freq dict

/-- Relating one bucket of the folded dict to the document-order group of
fragments with that frequency. -/
theorem periodFold_lookup (ct : String) (aux : List (String × String)) (freq : String) :
    ∀ (ps : List Period) (dict fdict : List (String × List Frag)),
    periodFold ct aux ps dict = .ok fdict →
    (∀ fr, fr ∈ RESOLUTIONS.map Prod.snd → dict.any (fun e => e.1 == fr) = true) →
    ∃ gs, groupFrags ct aux freq ps = .ok gs ∧
      List.lookup freq fdict = (List.lookup freq dict).map (fun l => l ++ gs) := by
  intro ps
  induction ps with
  | nil =>
    intro dict fdict hfold hinv
    rw [show periodFold ct aux [] dict = .ok dict from rfl, Except.ok.injEq] at hfold
    subst hfold
    refine ⟨[], rfl, ?_⟩
    cases List.lookup freq dict <;> simp
  | cons p ps ih =>
    intro dict fdict hfold hinv
    rw [periodFold_cons] at hfold
    cases hp : periodSeries ct aux p with
    | error e =>
      rw [hp] at hfold
      simp [Bind.bind, Except.bind] at hfold
    | ok r =>
      rw [hp] at hfold
      cases r with
      | none =>
        obtain ⟨gs, hgs, hlook⟩ := ih dict fdict hfold hinv
        refine ⟨gs, ?_, hlook⟩
        rw [groupFrags_cons, hp]
        exact hgs
      | some f =>
        have hmem := periodSeries_freq_mem ct aux p f hp
        have hinvk := hinv f.freq hmem
        obtain ⟨gs, hgs, hlook⟩ := ih (dictAppend dict f.freq f) fdict hfold
          (fun fr hfr => any_dictAppend _ _ _ _ (hinv fr hfr))
        refine ⟨if f.freq == freq then f :: gs else gs, ?_, ?_⟩
        · rw [groupFrags_cons, hp]
          show (do
            let rest ← groupFrags ct aux freq ps
            pure (if f.freq == freq then f :: rest else rest) :
            Except ParseError (List Frag)) = _
          rw [hgs]
          rfl
        · rw [hlook, lookup_dictAppend dict f.freq f hinvk freq]
          by_cases hf : freq = f.freq
          · have hfb : (f.freq == freq) = true := by rw [beq_iff_eq]; exact hf.symm
            rw [if_pos hf, hfb, if_pos rfl]
            cases List.lookup freq dict <;> simp
          · have hfb : (f.freq == freq) = false := by
              rw [beq_eq_false_iff_ne]; exact fun hh => hf hh.symm
            rw [if_neg hf, hfb]
            rfl

theorem seriesInit_any (fr : String) (h : fr ∈ RESOLUTIONS.map Prod.snd) :
    seriesInit.any (fun e => e.1 == fr) = true := by
  simp only [RESOLUTIONS, List.map_cons, List.map_nil, List.mem_cons,
    List.not_mem_nil, or_false] at h
  rcases h with rfl | rfl | rfl | rfl | rfl | rfl | rfl | rfl | rfl <;> decide

theorem seriesInit_lookup_empty (fr : String) (l : List Frag)
    (h : List.lookup fr seriesInit = some l) : l = [] := by
  have hm := lookup_mem_values fr l _ h
  simp only [seriesInit, RESOLUTIONS, List.map_cons, List.map_nil, List.mem_cons,
    List.not_mem_nil, or_false] at hm
  rcases hm with rfl | rfl | rfl | rfl | rfl | rfl | rfl | rfl | rfl <;> rfl

/-- C8: the assembler groups retained fragments by resolution in document
order; within a group it concatenates and sorts the rows ascending by
timestamp, preserving every row (a permutation, so duplicate timestamps
are never deduplicated). -/
theorem c8_group_concat_sort (doc : TsDoc) (opts : Opts)
    (fdict : List (String × List Frag)) (freq : String) (fs : List Frag)
    (hfold : foldPeriods doc opts = .ok fdict)
    (hentry : List.lookup freq fdict = some fs) :
    groupFrags doc.curvetype (auxColumns doc opts) freq doc.periods = .ok fs ∧
    (sortRows ((fs.map fragRows).flatten)).Perm ((fs.map fragRows).flatten) ∧
    List.Sorted keyLe (sortRows ((fs.map fragRows).flatten)) := by
  obtain ⟨gs, hgs, hlook⟩ := periodFold_lookup doc.curvetype (auxColumns doc opts) freq
    doc.periods seriesInit fdict hfold seriesInit_any
  rw [hentry] at hlook
  cases hsi : List.lookup freq seriesInit with
  | none =>
    rw [hsi] at hlook
    rw [show Option.map (fun l => l ++ gs) (none : Option (List Frag)) = none from rfl] at hlook
    exact Option.noConfusion hlook
  | some l0 =>
    have hl0 : l0 = [] := seriesInit_lookup_empty freq l0 hsi
    subst hl0
    rw [hsi] at hlook
    rw [show Option.map (fun l => l ++ gs) (some ([] : List Frag)) = some gs from rfl,
      Option.some.injEq] at hlook
    subst hlook
    exact ⟨hgs, List.perm_insertionSort keyLe _, List.sorted_insertionSort keyLe _⟩

/-- Witness for C8: a one-period hourly document, looked up at the hourly
bucket. -/
theorem c8_group_concat_sort_witness :
    groupFrags "A01" [] "60min" [⟨0, 3600000, "PT60M", [⟨1, "7"⟩]⟩] =
      .ok [⟨"60min", [(0, some "7")], []⟩] ∧
    (sortRows ((([⟨"60min", [(0, some "7")], []⟩] : List Frag).map fragRows).flatten)).Perm
      ((([⟨"60min", [(0, some "7")], []⟩] : List Frag).map fragRows).flatten) ∧
    List.Sorted keyLe
      (sortRows ((([⟨"60min", [(0, some "7")], []⟩] : List Frag).map fragRows).flatten)) := by
  have h := c8_group_concat_sort
    ⟨"A01", none, none, none, [⟨0, 3600000, "PT60M", [⟨1, "7"⟩]⟩]⟩ ⟨false, false, false⟩
    [("60min", [⟨"60min", [(0, some "7")], []⟩]), ("12MS", []), ("15min", []), ("30min", []),
     ("1D", []), ("7D", []), ("1MS", []), ("1min", []), ("4D 4h", [])]
    "60min" [⟨"60min", [(0, some "7")], []⟩] rfl rfl
  exact h

end Entsoe
